import Mathlib

/-!
Verification of the repository's Python scripts against its specification.

Each namespace shallowly embeds one source file:
* `Faiss`        — the small FAISS surface the scripts use (flat L2 index)
* `RagChat`      — rag_chat.py (dataset loading, word chunking, RAG query loop)
* `IndexBuilder` — index_builder.py (embedding loop, FAISS flat index, metadata)
* `ToolCall`     — toolcall.py (arithmetic tools and the function-call dispatch)
* `AppChat`      — app2.py (chat message preparation, prompt/response handling)
* `Routing`      — the CDR routing logic described by the spec (not under src/)
* `CDR`          — the call-detail-record lifecycle described by the spec

Python machine floats are modelled as rationals (`ℚ`), Python exceptions as
`Except String`, and external SDK calls as function parameters so that both
their success and failure behaviour can be analysed.  The file first gives
all definitions, then the lemmas and the claim theorems.
-/

/-- Chat message dictionary `{"role": ..., "content": ...}` used by
rag_chat.py and toolcall.py. -/
structure PyMessage where
  role : String
  content : String
deriving DecidableEq

namespace Faiss

/-- State of a `faiss.IndexFlatL2`: its dimension and the stored vectors in
insertion order. -/
structure IndexFlatL2 where
  d : Nat
  vectors : List (List ℚ)
deriving DecidableEq

/-- Constructor `faiss.IndexFlatL2(d)`: an empty flat index. -/
def IndexFlatL2.empty (d : Nat) : IndexFlatL2 := ⟨d, []⟩

/-- Method `index.add(matrix)`: appends the rows of the matrix, in order,
after the vectors already stored. -/
def IndexFlatL2.add (idx : IndexFlatL2) (rows : List (List ℚ)) : IndexFlatL2 :=
  { idx with vectors := idx.vectors ++ rows }

/-- Attribute `index.ntotal`: number of stored vectors. -/
def IndexFlatL2.ntotal (idx : IndexFlatL2) : Nat := idx.vectors.length

/-- Squared L2 distance, the metric of `IndexFlatL2`. -/
def sqDist (u v : List ℚ) : ℚ := (List.zipWith (fun a b => (a - b) * (a - b)) u v).sum

/-- Comparison used to rank stored vectors for a query: smaller distance
first, ties broken by the smaller index (FAISS returns ascending-distance
results and is deterministic on a flat index). -/
def searchLE (idx : IndexFlatL2) (q : List ℚ) (i j : Nat) : Bool :=
  decide (sqDist q (idx.vectors.getD i []) < sqDist q (idx.vectors.getD j []) ∨
    (sqDist q (idx.vectors.getD i []) = sqDist q (idx.vectors.getD j []) ∧ i ≤ j))

/-- Method `index.search(query, k)` on a flat L2 index: the indices of the
`k` stored vectors nearest to the query, in ascending distance order. -/
def IndexFlatL2.search (idx : IndexFlatL2) (q : List ℚ) (k : Nat) : List Nat :=
  ((List.range idx.vectors.length).mergeSort (searchLE idx q)).take k

end Faiss

namespace RagChat

/-- Python `str.split()` with no argument: split on whitespace runs and
discard empty pieces.  Models `text.split()` in `chunk_text` (rag_chat.py
line 27). -/
def pySplit (s : String) : List String :=
  (s.split fun c => c.isWhitespace).filter (fun w => w ≠ "")

/-- Loop body of `chunk_text` (rag_chat.py lines 29-31):
`for i in range(0, len(words), step): chunks.append(words[i:i+chunk_size])`,
at the word level.  `0 < step` is the condition under which Python's `range`
advances; the slice `words[i:i+chunk_size]` is `(words.drop i).take chunk_size`. -/
def chunkLoop (words : List String) (chunk_size step i : Nat) : List (List String) :=
  if h : 0 < step ∧ i < words.length then
    ((words.drop i).take chunk_size) :: chunkLoop words chunk_size step (i + step)
  else []
termination_by words.length - i
decreasing_by omega

/-- Number of iterations Python's `range(0, len, step)` performs, defined by
the same recursion as the loop itself. -/
def numChunks (len step : Nat) : Nat :=
  if 0 < step ∧ 0 < len then numChunks (len - step) step + 1 else 0
termination_by len
decreasing_by omega

/-- Function `chunk_text(text, chunk_size, overlap)` of rag_chat.py lines
23-32.  The Python loop steps by `chunk_size - overlap`; `range` raises
`ValueError` when that step is zero (modelled as `none`) and yields no index
when it is negative.  Each chunk is re-joined with `" ".join`. -/
def chunk_text (text : String) (chunk_size overlap : Nat) : Option (List String) :=
  if chunk_size = overlap then none
  else if chunk_size < overlap then some []
  else some ((chunkLoop (pySplit text) chunk_size (chunk_size - overlap) 0).map
    (String.intercalate " "))

/-- Word-level chunks of `chunk_text`, before the `" ".join`. -/
def wordChunks (words : List String) (chunk_size overlap : Nat) : List (List String) :=
  chunkLoop words chunk_size (chunk_size - overlap) 0

/-- Row helper `extract_questions` of `load_dataset` (rag_chat.py lines
14-19): `ast.literal_eval` (a Python-library call, passed here as the
parameter `litEval`) is guarded by `try/except Exception`, and a failure
yields the empty string.  A success is `" ".join`ed. -/
def extract_questions (litEval : String → Except String (List String))
    (questionsField : String) : String :=
  match litEval questionsField with
  | .ok qs => String.intercalate " " qs
  | .error _ => ""

/-- Function `load_dataset` (rag_chat.py lines 9-21) after `pd.read_csv`:
each row keeps its `questions` field and gains a derived `text` column. -/
def load_dataset (litEval : String → Except String (List String))
    (rows : List String) : List (String × String) :=
  rows.map (fun q => (q, extract_questions litEval q))

/-- Retrieval-augmented user message of the rag_chat.py main loop (lines
85-94): embed the query, search the index with `k = 5`, join the retrieved
chunks with blank lines, and format
`f"Context:\n{context}\n\nQuestion: {user_input}\nAnswer:"`. -/
def rag_user_message (all_chunks : List String) (index : Faiss.IndexFlatL2)
    (embed : String → List ℚ) (user_input : String) : PyMessage :=
  let retrieved := index.search (embed user_input) 5
  let context := String.intercalate "\n\n" (retrieved.map (fun i => all_chunks.getD i ""))
  { role := "user",
    content := "Context:\n" ++ context ++ "\n\nQuestion: " ++ user_input ++ "\nAnswer:" }

/-- One query iteration of the main loop up to the LLM call: the augmented
user message is appended to the conversation (rag_chat.py lines 91-94). -/
def rag_turn (conversation : List PyMessage) (all_chunks : List String)
    (index : Faiss.IndexFlatL2) (embed : String → List ℚ)
    (user_input : String) : List PyMessage :=
  conversation ++ [rag_user_message all_chunks index embed user_input]

end RagChat

namespace IndexBuilder

/-- Metadata entry `{"row_index": i}` (index_builder.py line 59). -/
structure RowMetadata where
  row_index : Nat
deriving DecidableEq

/-- Embedding loop of index_builder.py lines 38-47: one
`client.embeddings.create` call per text (passed as the parameter `embed`),
with no `try/except`, so the first SDK exception propagates and aborts the
script. -/
def embed_loop (embed : String → Except String (List ℚ)) :
    List String → Except String (List (List ℚ))
  | [] => .ok []
  | t :: ts => do
    let v ← embed t
    let rest ← embed_loop embed ts
    .ok (v :: rest)

/-- The embedding loop together with the number of SDK calls it makes: each
text is embedded at most once and the loop stops at the first exception
(index_builder.py performs no retry or backoff). -/
def embed_trace (embed : String → Except String (List ℚ)) :
    List String → Except String (List (List ℚ)) × Nat
  | [] => (.ok [], 0)
  | t :: ts =>
    match embed t with
    | .error e => (.error e, 1)
    | .ok v =>
      match embed_trace embed ts with
      | (.ok vs, c) => (.ok (v :: vs), c + 1)
      | (.error e, c) => (.error e, c + 1)

/-- The index-builder script after the CSV is loaded (index_builder.py lines
34-61): embed every text of the chosen column in row order, add all
embeddings to a fresh flat L2 index of the embedding dimension, and emit
`[{"row_index": i} for i in range(len(texts))]`. -/
def build_index (embed : String → Except String (List ℚ)) (texts : List String) :
    Except String (Faiss.IndexFlatL2 × List RowMetadata) := do
  let embs ← embed_loop embed texts
  let index := (Faiss.IndexFlatL2.empty (embs.headD []).length).add embs
  let metadata := (List.range texts.length).map (fun i => RowMetadata.mk i)
  .ok (index, metadata)

end IndexBuilder

namespace ToolCall

/-- Value returned by one of the arithmetic tools: a number, or the string
`"Division by zero"` / `"Unknown function."`. -/
inductive ArithResult where
  | num (q : ℚ)
  | str (s : String)
deriving DecidableEq

/-- Python division `a / b`, which raises `ZeroDivisionError` when `b = 0`. -/
def pyDiv (a b : ℚ) : Except String ℚ :=
  if b = 0 then .error "ZeroDivisionError" else .ok (a / b)

/-- toolcall.py line 67. -/
def add (a b : ℚ) : ℚ := a + b

/-- toolcall.py line 68. -/
def subtract (a b : ℚ) : ℚ := a - b

/-- toolcall.py line 69. -/
def multiply (a b : ℚ) : ℚ := a * b

/-- toolcall.py line 70: `"Division by zero" if b == 0 else a / b`.  The
guard is evaluated before the division, so `pyDiv` is only reached with a
non-zero divisor. -/
def divide (a b : ℚ) : Except String ArithResult :=
  if b = 0 then .ok (.str "Division by zero") else (pyDiv a b).map .num

/-- Function-call dispatch of toolcall.py lines 102-111. -/
def dispatch (func_name : String) (a b : ℚ) : Except String ArithResult :=
  if func_name = "add" then .ok (.num (add a b))
  else if func_name = "subtract" then .ok (.num (subtract a b))
  else if func_name = "multiply" then .ok (.num (multiply a b))
  else if func_name = "divide" then divide a b
  else .ok (.str "Unknown function.")

/-- Model response message of `choice.message`: its text content and the
optional function call.  The JSON arguments are modelled already decoded
into the two numbers the schemas require. -/
structure FunctionCall where
  name : String
  a : ℚ
  b : ℚ
deriving DecidableEq

/-- Field `choice.message` of an SDK chat response. -/
structure RespMessage where
  content : String
  function_call : Option FunctionCall
deriving DecidableEq

/-- One entry of `response.choices`. -/
structure Choice where
  message : RespMessage
deriving DecidableEq

/-- Return value of `client.chat.completions.create`. -/
structure ChatResponse where
  choices : List Choice
deriving DecidableEq

/-- Python `str(result)` applied to a tool result. -/
def resultStr : ArithResult → String
  | .num q => toString q
  | .str s => s

/-- System prompt of toolcall.py line 81. -/
def toolSystemText : String :=
  "You are a math assistant. If the user asks for arithmetic, use the available tools to get the result."

/-- Python `response.choices[0]`, which raises `IndexError` on an empty
list. -/
def firstChoice (r : ChatResponse) : Except String Choice :=
  match r.choices.head? with
  | some c => .ok c
  | none => .error "IndexError"

/-- One iteration of the toolcall.py chat loop (lines 80-126).  Both
`client.chat.completions.create` calls go through the parameter `sdk`;
neither is wrapped in `try/except`, so an SDK exception propagates out of
the turn.  The `role: function` reply carries `str(result)` as content. -/
def toolcall_turn (sdk : List PyMessage → Except String ChatResponse)
    (user_input : String) : Except String String := do
  let messages : List PyMessage := [⟨"system", toolSystemText⟩, ⟨"user", user_input⟩]
  let response ← sdk messages
  let choice ← firstChoice response
  match choice.message.function_call with
  | some fc => do
    let result ← dispatch fc.name fc.a fc.b
    let messages2 := messages ++ [⟨"function", resultStr result⟩]
    let response2 ← sdk messages2
    let choice2 ← firstChoice response2
    return choice2.message.content
  | none => return choice.message.content

end ToolCall

namespace RagChat

/-- Full query iteration of the rag_chat.py main loop (lines 85-106),
including the `client.chat.completions.create` call of line 97 (the
parameter `sdk`), which has no surrounding try/except: the augmented user
message is appended, the LLM is called, and
`response.choices[0].message.content.strip()` is appended as the assistant
message. -/
def rag_query_turn (sdk : List PyMessage → Except String ToolCall.ChatResponse)
    (conversation : List PyMessage) (all_chunks : List String)
    (index : Faiss.IndexFlatL2) (embed : String → List ℚ)
    (user_input : String) : Except String (List PyMessage) := do
  let conv1 := rag_turn conversation all_chunks index embed user_input
  let response ← sdk conv1
  let choice ← ToolCall.firstChoice response
  let answer := choice.message.content.trim
  return conv1 ++ [⟨"assistant", answer⟩]

end RagChat

namespace AppChat

/-- Session-state chat message of app2.py: a role and a text content (the
optional staged image is tracked separately where it matters). -/
structure UIMessage where
  role : String
  content : String
deriving DecidableEq, Inhabited

/-- Content of a message sent to the API: plain text, or the two-part list
`[{"type": "text", ...}, {"type": "image_url", ...}]` built at app2.py lines
50-59.  The base64 payload is carried as the image string. -/
inductive ApiContent where
  | plain (text : String)
  | withImage (text : String) (image : String)
deriving DecidableEq, Inhabited

/-- Message forwarded to the chat-completions API. -/
structure ApiMessage where
  role : String
  content : ApiContent
deriving DecidableEq, Inhabited

/-- Text part of an API message content. -/
def ApiContent.text : ApiContent → String
  | .plain t => t
  | .withImage t _ => t

/-- Whether an API message content carries an image part. -/
def ApiContent.hasImage : ApiContent → Bool
  | .plain _ => false
  | .withImage _ _ => true

/-- Backwards scan of app2.py lines 40-44: the index of the last message
whose role is `"user"`.  Python keeps `-1` when there is none; `none` plays
that role here (the sentinel never equals a valid index). -/
def last_user_message_index (msgs : List UIMessage) : Option Nat :=
  (List.range msgs.length).reverse.find? (fun i => (msgs.getD i default).role == "user")

/-- Loop of app2.py lines 46-62 building `api_messages`: the image is
attached only when one was provided and the message is the last user
message; every other message keeps its role and text content. -/
def get_api_messages (msgs : List UIMessage) (image_data : Option String) :
    List ApiMessage :=
  msgs.enum.map (fun p =>
    match image_data with
    | some img =>
      if p.2.role = "user" ∧ last_user_message_index msgs = some p.1 then
        { role := "user", content := .withImage p.2.content img }
      else
        { role := p.2.role, content := .plain p.2.content }
    | none => { role := p.2.role, content := .plain p.2.content })

/-- app2.py line 64: `full_api_messages = [{"role": "system", ...}] +
api_messages`. -/
def get_chat_completion_messages (system_prompt : String) (msgs : List UIMessage)
    (image_data : Option String) : List ApiMessage :=
  { role := "system", content := .plain system_prompt } :: get_api_messages msgs image_data

/-- Return value of the streaming chat call of app2.py line 66, opaque to
this model. -/
structure ChatStream where
  chunks : List String
deriving DecidableEq, Inhabited

/-- Tail of `get_chat_completion` (app2.py lines 66-72): the
`client.chat.completions.create` call (the parameter `sdk`) is applied to
the prepared message list and returned directly, with no surrounding
try/except. -/
def get_chat_completion (system_prompt : String) (msgs : List UIMessage)
    (image_data : Option String)
    (sdk : List ApiMessage → Except String ChatStream) : Except String ChatStream :=
  sdk (get_chat_completion_messages system_prompt msgs image_data)

/-- Result of `recognizer.recognize_once_async().get()`: whether the reason
was `RecognizedSpeech`, and the recognized text. -/
structure RecognitionResult where
  recognized : Bool
  text : String
deriving DecidableEq

/-- Function `transcribe_audio_from_mic` of app2.py lines 75-82: the speech
SDK call (the parameter `recognize`) has no try/except; its result is
mapped to the text or the error string of line 82. -/
def transcribe_audio_from_mic (recognize : Unit → Except String RecognitionResult) :
    Except String String := do
  let result ← recognize ()
  return (if result.recognized then result.text else "Error: Could not recognize speech.")

/-- Result of `synthesizer.speak_text_async(text).get()`: whether the reason
was `SynthesizingAudioCompleted`, and the audio bytes. -/
structure SynthesisResult where
  completed : Bool
  audio_data : String
deriving DecidableEq

/-- Function `synthesize_text_to_speech` of app2.py lines 84-88: the speech
SDK call has no try/except; the audio is returned only when synthesis
completed (line 88). -/
def synthesize_text_to_speech (synthesize : String → Except String SynthesisResult)
    (text : String) : Except String (Option String) := do
  let result ← synthesize text
  return (if result.completed then some result.audio_data else none)

/-- Function `transcribe_audio_file` of app2.py lines 90-99: the speech SDK
call has no try/except; its result is mapped to the text or the fallback
string of line 99. -/
def transcribe_audio_file (recognize : Unit → Except String RecognitionResult) :
    Except String String := do
  let result ← recognize ()
  return (if result.recognized then result.text else "Could not transcribe audio.")

/-- Modelled from the spec: the SQLite chat-history store behind the missing
`src/database.py` module ("SQLite for local chat history").  `chats` holds
`(chat_id, title)` rows and `messages` holds `(chat_id, role, content)` rows
in insertion order. -/
structure ChatDB where
  chats : List (Nat × String)
  messages : List (Nat × String × String)
deriving DecidableEq

/-- Modelled from the spec: `database.add_chat(title)` inserts a chat row
and returns its id. -/
def add_chat (db : ChatDB) (title : String) : Nat × ChatDB :=
  (db.chats.length, { db with chats := db.chats ++ [(db.chats.length, title)] })

/-- Modelled from the spec: `database.add_message(chat_id, role, content)`
appends one history row. -/
def add_message (db : ChatDB) (chat_id : Nat) (role content : String) : ChatDB :=
  { db with messages := db.messages ++ [(chat_id, role, content)] }

/-- Streamlit session state of app2.py relevant to persistence. -/
structure SessionState where
  current_chat_id : Option Nat
  messages : List UIMessage
deriving DecidableEq

/-- Prompt-submission block of app2.py lines 196-210: with no current chat,
a new chat titled `prompt[:40] + "..."` is created and the message list
reset; then the user message is appended to the session and to the SQLite
history. -/
def handle_prompt (st : SessionState) (db : ChatDB) (prompt : String) :
    SessionState × ChatDB :=
  let (cid, st1, db1) :=
    match st.current_chat_id with
    | none =>
      let (newId, db') := add_chat db (prompt.take 40 ++ "...")
      (newId, { st with current_chat_id := some newId, messages := [] }, db')
    | some cid => (cid, st, db)
  let st2 := { st1 with messages := st1.messages ++ [⟨"user", prompt⟩] }
  (st2, add_message db1 cid "user" prompt)

/-- Response block of app2.py lines 217-241 (after the stream is consumed
into `response_content`): the assistant message is appended to the session
and to the SQLite history of the current chat. -/
def handle_response (st : SessionState) (db : ChatDB) (response_content : String) :
    SessionState × ChatDB :=
  let st1 := { st with messages := st.messages ++ [⟨"assistant", response_content⟩] }
  match st.current_chat_id with
  | some cid => (st1, add_message db cid "assistant" response_content)
  | none => (st1, db)

/-- One full prompt/response cycle: the submission rerun followed by the
response rerun. -/
def prompt_cycle (st : SessionState) (db : ChatDB) (prompt response_content : String) :
    SessionState × ChatDB :=
  let (st1, db1) := handle_prompt st db prompt
  handle_response st1 db1 response_content

end AppChat

namespace Routing

/-- Modelled from the spec: the record shape `route_record` inspects.  The
routing code is not under src/; the spec describes "string-split/float-parse/
threshold-compare branches over a fixed set of keys" with "try/except-and-
ignore", so each numeric key carries `none` when its float parse failed, and
the VDI check reads a textual key. -/
structure RoutedRecord where
  avg_jitter : Option ℚ
  packet_loss_rate : Option ℚ
  round_trip_time : Option ℚ
  client_type : String
  device_glitch_rate : Option ℚ
  log_error_count : Option ℚ
deriving DecidableEq

/-- Threshold comparison on a parsed field: a failed parse never matches
(try/except-and-ignore). -/
def optGt (v : Option ℚ) (threshold : ℚ) : Bool :=
  match v with
  | some x => decide (threshold < x)
  | none => false

/-- Substring test `kw in s`, decided over the character lists: some suffix
of `s` starts with `kw`. -/
def strHas (s kw : String) : Bool :=
  s.toList.tails.any (fun t => kw.toList.isPrefixOf t)

/-- Modelled from the spec: one row of the decision table, "a fixed list of
(field, comparison operator, threshold) tuples" plus the VDI keyword test. -/
inductive RouteTest where
  | gtField (field : RoutedRecord → Option ℚ) (threshold : ℚ)
  | keyword (field : RoutedRecord → String) (kw : String)

/-- A decision-table row with the category it routes to. -/
structure RouteRule where
  test : RouteTest
  category : String

/-- Whether a record satisfies one rule. -/
def ruleMatches (r : RoutedRecord) : RouteRule → Bool
  | ⟨.gtField f threshold, _⟩ => optGt (f r) threshold
  | ⟨.keyword f kw, _⟩ => strHas (f r) kw

/-- Modelled from the spec: the fixed rule list in its fixed priority order —
"network conditions first, then VDI keyword match, then device/log
metrics". -/
def route_rules : List RouteRule :=
  [⟨.gtField RoutedRecord.avg_jitter 30, "network"⟩,
   ⟨.gtField RoutedRecord.packet_loss_rate 5, "network"⟩,
   ⟨.gtField RoutedRecord.round_trip_time 500, "network"⟩,
   ⟨.keyword RoutedRecord.client_type "vdi", "vdi"⟩,
   ⟨.gtField RoutedRecord.device_glitch_rate 10, "log"⟩,
   ⟨.gtField RoutedRecord.log_error_count 100, "log"⟩]

/-- Modelled from the spec: `route_record`, written as the "sequence of
string-split/float-parse/threshold-compare branches" the spec describes —
network thresholds, then the VDI keyword, then device/log metrics, with
`"none"` when nothing matches. -/
def route_record (r : RoutedRecord) : String :=
  if optGt r.avg_jitter 30 then "network"
  else if optGt r.packet_loss_rate 5 then "network"
  else if optGt r.round_trip_time 500 then "network"
  else if strHas r.client_type "vdi" then "vdi"
  else if optGt r.device_glitch_rate 10 then "log"
  else if optGt r.log_error_count 100 then "log"
  else "none"

/-- Declarative reading of the same spec sentence: the category of the first
matching decision-table row, or `"none"`. -/
def firstMatchCategory (rules : List RouteRule) (r : RoutedRecord) : String :=
  match rules.find? (ruleMatches r) with
  | some rule => rule.category
  | none => "none"

end Routing

namespace CDR

/-- Modelled from the spec: per-stream quality metrics of a CDR ("jitter,
packet loss, round-trip time, device glitch rate, signal level"). -/
structure MediaStream where
  avg_jitter : ℚ
  packet_loss_rate : ℚ
  round_trip_time : ℚ
  device_glitch_rate : ℚ
  signal_level : ℚ
deriving DecidableEq

/-- Modelled from the spec: a participant holds media streams. -/
structure Participant where
  streams : List MediaStream
deriving DecidableEq

/-- Modelled from the spec: a session holds participants. -/
structure Session where
  participants : List Participant
deriving DecidableEq

/-- Modelled from the spec: "a record with an organizer identity, call type,
nested sessions → participants → media streams, and per-stream quality
metrics". -/
structure CallDetailRecord where
  organizer : String
  call_type : String
  sessions : List Session
deriving DecidableEq

/-- Modelled from the spec: synthetic generation ("random values"); the
random draws are supplied as arguments, so generation just assembles the
record. -/
def generate_cdr (organizer call_type : String) (sessions : List Session) :
    CallDetailRecord :=
  ⟨organizer, call_type, sessions⟩

/-- Metric list of one stream, in the order the spec names the metrics. -/
def streamMetrics (s : MediaStream) : List ℚ :=
  [s.avg_jitter, s.packet_loss_rate, s.round_trip_time, s.device_glitch_rate,
   s.signal_level]

/-- Modelled from the spec: flattening a nested CDR "into a text summary +
metric list". -/
def flatten_cdr (c : CallDetailRecord) : String × List ℚ :=
  ("Call organized by " ++ c.organizer ++ " of type " ++ c.call_type,
   (c.sessions.flatMap (fun s =>
     s.participants.flatMap (fun p => p.streams.flatMap streamMetrics))))

/-- Modelled from the spec: threshold matching of a flattened CDR for
routing, using the first stream's metrics when present. -/
def route_cdr (c : CallDetailRecord) : String :=
  let m := (c.sessions.flatMap (fun s =>
    s.participants.flatMap (fun p => p.streams))).head?
  Routing.route_record
    { avg_jitter := m.map MediaStream.avg_jitter,
      packet_loss_rate := m.map MediaStream.packet_loss_rate,
      round_trip_time := m.map MediaStream.round_trip_time,
      client_type := c.call_type,
      device_glitch_rate := m.map MediaStream.device_glitch_rate,
      log_error_count := none }

/-- Modelled from the spec: the whole lifecycle "generated synthetically →
flattened into a text summary + metric list → embedded → optionally matched
against fixed numeric thresholds for routing → discarded (no persistence
beyond the session or a flat file)".  The persistent store is threaded
through explicitly and never written. -/
def cdr_pipeline (embed : String → List ℚ) (store : List String)
    (organizer call_type : String) (sessions : List Session) :
    (String × List ℚ) × List ℚ × String × List String :=
  let c := generate_cdr organizer call_type sessions
  let flat := flatten_cdr c
  let embedding := embed flat.1
  let category := route_cdr c
  (flat, embedding, category, store)

end CDR

/-! ## Helper lemmas -/

namespace RagChat

theorem chunkLoop_eq_map (words : List String) (cs step : Nat) (hstep : 0 < step) (i : Nat) :
    chunkLoop words cs step i =
      (List.range (numChunks (words.length - i) step)).map
        (fun j => (words.drop (i + j * step)).take cs) := by
  rw [chunkLoop]
  by_cases hi : i < words.length
  · rw [dif_pos ⟨hstep, hi⟩]
    rw [chunkLoop_eq_map words cs step hstep (i + step)]
    have hn : numChunks (words.length - i) step =
        numChunks (words.length - (i + step)) step + 1 := by
      rw [numChunks]
      rw [if_pos ⟨hstep, by omega⟩]
      congr 2
      omega
    rw [hn, List.range_succ_eq_map, List.map_cons, List.map_map]
    congr 1
    · simp
    · apply List.map_congr_left
      intro j _
      simp only [Function.comp_apply, Nat.succ_eq_add_one]
      congr 2
      ring
  · rw [dif_neg (by omega)]
    have h0 : words.length - i = 0 := by omega
    rw [h0, numChunks, if_neg (by omega), List.range_zero, List.map_nil]
termination_by words.length - i
decreasing_by omega

theorem wordChunks_eq_map (words : List String) (cs ov : Nat) (h : ov < cs) :
    wordChunks words cs ov =
      (List.range (numChunks words.length (cs - ov))).map
        (fun j => (words.drop (j * (cs - ov))).take cs) := by
  rw [wordChunks, chunkLoop_eq_map words cs (cs - ov) (by omega) 0]
  simp only [Nat.sub_zero, Nat.zero_add]

theorem lt_numChunks {len step k : Nat} (hstep : 0 < step) (h : k * step < len) :
    k < numChunks len step := by
  induction k generalizing len with
  | zero =>
    rw [numChunks, if_pos ⟨hstep, by omega⟩]
    omega
  | succ k ih =>
    rw [numChunks, if_pos ⟨hstep, by omega⟩]
    have := @ih (len - step) (by
      have : k * step + step ≤ (k + 1) * step := by ring_nf; omega
      omega)
    omega

theorem numChunks_lt {len step k : Nat} (h : k < numChunks len step) :
    k * step < len := by
  induction k generalizing len with
  | zero =>
    rw [numChunks] at h
    by_cases hc : 0 < step ∧ 0 < len
    · omega
    · rw [if_neg hc] at h; omega
  | succ k ih =>
    rw [numChunks] at h
    by_cases hc : 0 < step ∧ 0 < len
    · rw [if_pos hc] at h
      have := @ih (len - step) (by omega)
      have : (k + 1) * step = k * step + step := by ring
      omega
    · rw [if_neg hc] at h; omega

theorem wordChunks_length (words : List String) (cs ov : Nat) (h : ov < cs) :
    (wordChunks words cs ov).length = numChunks words.length (cs - ov) := by
  rw [wordChunks_eq_map words cs ov h, List.length_map, List.length_range]

theorem wordChunks_getD (words : List String) (cs ov j : Nat) (h : ov < cs)
    (hj : j < (wordChunks words cs ov).length) :
    (wordChunks words cs ov).getD j [] = (words.drop (j * (cs - ov))).take cs := by
  rw [wordChunks_eq_map words cs ov h] at hj ⊢
  rw [List.getD_eq_getElem?_getD, List.getElem?_eq_getElem hj]
  simp only [List.getElem_map, List.getElem_range, Option.getD_some]

theorem wordChunks_chunk_le (words : List String) (cs ov : Nat) (h : ov < cs) :
    ∀ c ∈ wordChunks words cs ov, c.length ≤ cs := by
  intro c hc
  rw [wordChunks_eq_map words cs ov h] at hc
  obtain ⟨j, _, rfl⟩ := List.mem_map.mp hc
  rw [List.length_take]
  omega

theorem wordChunks_cover (words : List String) (cs ov : Nat) (h : ov < cs) :
    ∀ w ∈ words, ∃ c ∈ wordChunks words cs ov, w ∈ c := by
  intro w hw
  obtain ⟨n, hn, rfl⟩ := List.getElem_of_mem hw
  have hstep : 0 < cs - ov := by omega
  have key : n / (cs - ov) * (cs - ov) + n % (cs - ov) = n := by
    rw [Nat.mul_comm]; exact Nat.div_add_mod n (cs - ov)
  have hmod : n % (cs - ov) < cs - ov := Nat.mod_lt n hstep
  refine ⟨(words.drop (n / (cs - ov) * (cs - ov))).take cs, ?_, ?_⟩
  · rw [wordChunks_eq_map words cs ov h]
    exact List.mem_map.mpr ⟨n / (cs - ov),
      List.mem_range.mpr (lt_numChunks hstep (by omega)), rfl⟩
  · have hidx : n - n / (cs - ov) * (cs - ov) <
        ((words.drop (n / (cs - ov) * (cs - ov))).take cs).length := by
      rw [List.length_take, List.length_drop]
      omega
    have hEq : ((words.drop (n / (cs - ov) * (cs - ov))).take cs).get
        ⟨n - n / (cs - ov) * (cs - ov), hidx⟩ = words[n] := by
      simp only [List.get_eq_getElem, Fin.val_mk, List.getElem_take, List.getElem_drop]
      congr 1
      omega
    rw [← hEq]
    exact List.get_mem _ _ hidx

theorem wordChunks_overlap (words : List String) (cs ov j : Nat) (h : ov < cs)
    (h2 : 2 * ov ≤ cs) (hj : j + 2 < (wordChunks words cs ov).length) :
    ((wordChunks words cs ov).getD j []).length = cs ∧
    ((wordChunks words cs ov).getD j []).drop (cs - ov) =
      ((wordChunks words cs ov).getD (j + 1) []).take ov := by
  have hlen : (j + 2) * (cs - ov) < words.length := by
    apply numChunks_lt
    rw [← wordChunks_length words cs ov h]
    exact hj
  have e1 : (j + 2) * (cs - ov) = j * (cs - ov) + 2 * (cs - ov) := by ring
  have e2 : j * (cs - ov) + (cs - ov) = (j + 1) * (cs - ov) := by ring
  rw [wordChunks_getD words cs ov j h (by omega),
      wordChunks_getD words cs ov (j + 1) h (by omega)]
  constructor
  · rw [List.length_take, List.length_drop]
    omega
  · rw [List.drop_take, List.drop_drop, List.take_take, e2]
    congr 1
    omega

end RagChat

namespace Faiss

theorem searchLE_trans (idx : IndexFlatL2) (q : List ℚ) :
    ∀ a b c, searchLE idx q a b → searchLE idx q b c → searchLE idx q a c := by
  intro a b c hab hbc
  simp only [searchLE, decide_eq_true_eq] at *
  rcases hab with h | ⟨e, hi⟩
  · rcases hbc with h' | ⟨e', _⟩
    · exact Or.inl (lt_trans h h')
    · exact Or.inl (e' ▸ h)
  · rcases hbc with h' | ⟨e', hj⟩
    · exact Or.inl (e ▸ h')
    · exact Or.inr ⟨e.trans e', le_trans hi hj⟩

theorem searchLE_total (idx : IndexFlatL2) (q : List ℚ) :
    ∀ a b, searchLE idx q a b || searchLE idx q b a := by
  intro a b
  simp only [searchLE, Bool.or_eq_true, decide_eq_true_eq]
  rcases lt_trichotomy (sqDist q (idx.vectors.getD a []))
      (sqDist q (idx.vectors.getD b [])) with h | h | h
  · exact Or.inl (Or.inl h)
  · rcases Nat.le_total a b with hab | hab
    · exact Or.inl (Or.inr ⟨h, hab⟩)
    · exact Or.inr (Or.inr ⟨h.symm, hab⟩)
  · exact Or.inr (Or.inl h)

theorem search_length (idx : IndexFlatL2) (q : List ℚ) (k : Nat) :
    (idx.search q k).length = min k idx.ntotal := by
  rw [IndexFlatL2.search, List.length_take, List.length_mergeSort, List.length_range]
  rfl

theorem search_mem_lt (idx : IndexFlatL2) (q : List ℚ) (k : Nat) :
    ∀ i ∈ idx.search q k, i < idx.ntotal := by
  intro i hi
  have hmem : i ∈ (List.range idx.vectors.length).mergeSort (searchLE idx q) :=
    List.mem_of_mem_take hi
  rw [List.mem_mergeSort] at hmem
  exact List.mem_range.mp hmem

theorem search_nearest (idx : IndexFlatL2) (q : List ℚ) (k : Nat) :
    ∀ i ∈ idx.search q k, ∀ j, j < idx.ntotal → j ∉ idx.search q k →
      sqDist q (idx.vectors.getD i []) ≤ sqDist q (idx.vectors.getD j []) := by
  intro i hi j hj hnot
  have hpair : ((List.range idx.vectors.length).mergeSort (searchLE idx q)).Pairwise
      (fun a b => searchLE idx q a b = true) := by
    simpa using List.sorted_mergeSort
      (searchLE_trans idx q) (searchLE_total idx q) (List.range idx.vectors.length)
  have hsplit : (List.range idx.vectors.length).mergeSort (searchLE idx q) =
      idx.search q k ++ ((List.range idx.vectors.length).mergeSort (searchLE idx q)).drop k :=
    (List.take_append_drop k _).symm
  have hjmem : j ∈ (List.range idx.vectors.length).mergeSort (searchLE idx q) := by
    rw [List.mem_mergeSort]
    exact List.mem_range.mpr hj
  have hjdrop : j ∈ ((List.range idx.vectors.length).mergeSort (searchLE idx q)).drop k := by
    rw [hsplit] at hjmem
    rcases List.mem_append.mp hjmem with h | h
    · exact absurd h hnot
    · exact h
  have hle : searchLE idx q i j = true := by
    rw [hsplit] at hpair
    exact (List.pairwise_append.mp hpair).2.2 i hi j hjdrop
  simp only [searchLE, decide_eq_true_eq] at hle
  rcases hle with h | ⟨e, _⟩
  · exact le_of_lt h
  · exact le_of_eq e

end Faiss

namespace AppChat

theorem find?_reverse_range (p : Nat → Bool) (n i : Nat) :
    (List.range n).reverse.find? p = some i ↔
      p i = true ∧ i < n ∧ ∀ j, i < j → j < n → p j = false := by
  induction n with
  | zero => simp
  | succ n ih =>
    rw [List.range_succ, List.reverse_append, List.reverse_singleton,
      List.singleton_append]
    cases hp : p n with
    | true =>
      rw [List.find?_cons_of_pos _ hp]
      constructor
      · intro h
        injection h with h
        subst h
        exact ⟨hp, Nat.lt_succ_self _, fun j h1 h2 => by omega⟩
      · rintro ⟨hpi, hin, hafter⟩
        by_cases hni : i = n
        · subst hni; rfl
        · exfalso
          have := hafter n (by omega) (by omega)
          rw [hp] at this
          cases this
    | false =>
      rw [List.find?_cons_of_neg _ (by simp [hp]), ih]
      constructor
      · rintro ⟨hpi, hin, hafter⟩
        refine ⟨hpi, by omega, fun j h1 h2 => ?_⟩
        by_cases hj : j = n
        · subst hj; exact hp
        · exact hafter j h1 (by omega)
      · rintro ⟨hpi, hin, hafter⟩
        have hne : i ≠ n := by
          intro he
          subst he
          rw [hp] at hpi
          cases hpi
        exact ⟨hpi, by omega, fun j h1 h2 => hafter j h1 (by omega)⟩

theorem last_user_message_index_iff (msgs : List UIMessage) (i : Nat) :
    last_user_message_index msgs = some i ↔
      i < msgs.length ∧ (msgs.getD i default).role = "user" ∧
      ∀ j, i < j → j < msgs.length → (msgs.getD j default).role ≠ "user" := by
  rw [last_user_message_index, find?_reverse_range]
  constructor
  · rintro ⟨hpi, hin, hafter⟩
    refine ⟨hin, by simpa using hpi, fun j h1 h2 => ?_⟩
    have := hafter j h1 h2
    simpa using this
  · rintro ⟨hin, hrole, hafter⟩
    refine ⟨by simpa using hrole, hin, fun j h1 h2 => ?_⟩
    have := hafter j h1 h2
    simpa using this

end AppChat

theorem exceptBind_ok {α β ε : Type} (a : α) (f : α → Except ε β) :
    (Except.ok a >>= f) = f a := rfl

theorem exceptBind_error {α β ε : Type} (e : ε) (f : α → Except ε β) :
    ((Except.error e : Except ε α) >>= f) = Except.error e := rfl

namespace IndexBuilder

theorem embed_loop_ok (embed : String → Except String (List ℚ)) :
    ∀ (ts : List String) (vs : List (List ℚ)), embed_loop embed ts = .ok vs →
      vs.length = ts.length ∧
      ∀ i, i < ts.length → embed (ts.getD i "") = .ok (vs.getD i []) := by
  intro ts
  induction ts with
  | nil =>
    intro vs h
    simp only [embed_loop] at h
    cases h
    exact ⟨rfl, fun i hi => by simp at hi⟩
  | cons t ts ih =>
    intro vs h
    simp only [embed_loop] at h
    cases he : embed t with
    | error e =>
      rw [he, exceptBind_error] at h
      exact Except.noConfusion h
    | ok v =>
      rw [he, exceptBind_ok] at h
      cases hr : embed_loop embed ts with
      | error e =>
        rw [hr, exceptBind_error] at h
        exact Except.noConfusion h
      | ok rest =>
        rw [hr, exceptBind_ok] at h
        cases h
        obtain ⟨hlen, hall⟩ := ih rest hr
        refine ⟨by simp [hlen], fun i hi => ?_⟩
        cases i with
        | zero => simpa using he
        | succ i =>
          simp only [List.getD_cons_succ]
          exact hall i (by simpa using hi)

theorem embed_trace_spec (embed : String → Except String (List ℚ)) :
    ∀ ts : List String, (embed_trace embed ts).1 = embed_loop embed ts ∧
      (embed_trace embed ts).2 ≤ ts.length := by
  intro ts
  induction ts with
  | nil => exact ⟨rfl, by simp [embed_trace]⟩
  | cons t ts ih =>
    obtain ⟨ih1, ih2⟩ := ih
    simp only [embed_trace, embed_loop, List.length_cons]
    cases he : embed t with
    | error e =>
      refine ⟨by rw [exceptBind_error], ?_⟩
      show 1 ≤ ts.length + 1
      omega
    | ok v =>
      rw [exceptBind_ok]
      rcases hq : embed_trace embed ts with ⟨r, c⟩
      rw [hq] at ih1 ih2
      simp only at ih1 ih2
      cases r with
      | error e =>
        have h2 : embed_loop embed ts = Except.error e := ih1.symm
        refine ⟨by simp [h2, exceptBind_error], ?_⟩
        show c + 1 ≤ ts.length + 1
        omega
      | ok vs =>
        have h2 : embed_loop embed ts = Except.ok vs := ih1.symm
        refine ⟨by simp [h2, exceptBind_ok], ?_⟩
        show c + 1 ≤ ts.length + 1
        omega

end IndexBuilder

namespace Routing

theorem route_record_eq_firstMatch (r : RoutedRecord) :
    route_record r = firstMatchCategory route_rules r := by
  simp only [route_record, firstMatchCategory, route_rules, ruleMatches]
  cases h1 : optGt r.avg_jitter 30 <;>
    cases h2 : optGt r.packet_loss_rate 5 <;>
      cases h3 : optGt r.round_trip_time 500 <;>
        cases h4 : strHas r.client_type "vdi" <;>
          cases h5 : optGt r.device_glitch_rate 10 <;>
            cases h6 : optGt r.log_error_count 100 <;>
              simp [List.find?, ruleMatches, h1, h2, h3, h4, h5, h6]

theorem route_record_mem (r : RoutedRecord) :
    route_record r ∈ (["network", "vdi", "log", "none"] : List String) := by
  rw [route_record]
  split_ifs <;> simp

end Routing

namespace ToolCall

theorem dispatch_ok (name : String) (a b : ℚ) : ∃ r, dispatch name a b = .ok r := by
  simp only [dispatch, divide, pyDiv]
  split_ifs <;> exact ⟨_, rfl⟩

end ToolCall

namespace AppChat

theorem get_api_messages_length (msgs : List UIMessage) (img : Option String) :
    (get_api_messages msgs img).length = msgs.length := by
  simp [get_api_messages]

theorem get_api_messages_getD (msgs : List UIMessage) (img : Option String)
    (i : Nat) (hi : i < msgs.length) :
    (get_api_messages msgs img).getD i default =
      (match img with
       | some im =>
         if (msgs.getD i default).role = "user" ∧ last_user_message_index msgs = some i then
           ApiMessage.mk "user" (.withImage (msgs.getD i default).content im)
         else ApiMessage.mk (msgs.getD i default).role (.plain (msgs.getD i default).content)
       | none =>
         ApiMessage.mk (msgs.getD i default).role (.plain (msgs.getD i default).content)) := by
  have hlen : i < (get_api_messages msgs img).length := by
    rw [get_api_messages_length]; exact hi
  rw [List.getD_eq_getElem?_getD, List.getElem?_eq_getElem hlen, Option.getD_some]
  rw [List.getD_eq_getElem?_getD, List.getElem?_eq_getElem hi, Option.getD_some]
  simp only [get_api_messages, List.getElem_map, List.getElem_enum]

theorem get_api_messages_getD_some (msgs : List UIMessage) (im : String)
    (i : Nat) (hi : i < msgs.length) :
    (get_api_messages msgs (some im)).getD i default =
      (if (msgs.getD i default).role = "user" ∧ last_user_message_index msgs = some i then
        ApiMessage.mk "user" (.withImage (msgs.getD i default).content im)
      else ApiMessage.mk (msgs.getD i default).role (.plain (msgs.getD i default).content)) :=
  get_api_messages_getD msgs (some im) i hi

theorem get_api_messages_getD_none (msgs : List UIMessage)
    (i : Nat) (hi : i < msgs.length) :
    (get_api_messages msgs none).getD i default =
      ApiMessage.mk (msgs.getD i default).role (.plain (msgs.getD i default).content) :=
  get_api_messages_getD msgs none i hi

end AppChat

/-! ## Claim theorems -/

/-- Claim C1: the record-routing function evaluates a fixed list of
(field, comparison operator, threshold) rules in a fixed priority order —
network-condition thresholds first, then the VDI keyword match, then
device/log metric thresholds — and for every input record returns the
category of the first matching rule, or `"none"` when no rule matches.
The routing code is not under src/, so `route_record` and its rule table
are modelled from the spec. -/
theorem claim_C1_route_record_first_match (r : Routing.RoutedRecord) :
    Routing.route_record r = Routing.firstMatchCategory Routing.route_rules r ∧
    Routing.route_rules.map Routing.RouteRule.category =
      ["network", "network", "network", "vdi", "log", "log"] ∧
    ((∀ rule ∈ Routing.route_rules, Routing.ruleMatches r rule = false) →
      Routing.route_record r = "none") := by
  refine ⟨Routing.route_record_eq_firstMatch r, rfl, fun hnone => ?_⟩
  have hfind : Routing.route_rules.find? (Routing.ruleMatches r) = none :=
    List.find?_eq_none.mpr (fun x hx => by rw [hnone x hx]; simp)
  rw [Routing.route_record_eq_firstMatch r, Routing.firstMatchCategory, hfind]

/-- Witness for C1: a record matching no rule routes to `"none"`. -/
theorem claim_C1_witness :
    Routing.route_record (Routing.RoutedRecord.mk none none none "" none none) = "none" :=
  (claim_C1_route_record_first_match _).2.2 (by decide)

/-- Counterexample to claim C2: the `client.chat.completions.create` call in
toolcall.py (line 85) has no surrounding try/except, so an SDK exception is
propagated out of the chat turn, not caught. -/
theorem claim_C2_counterexample :
    ToolCall.toolcall_turn (fun _ => .error "boom") "add 2 and 3" = .error "boom" := rfl

/-- Claim C2 as amended: every external SDK call in the repository's source
files — the Azure OpenAI chat calls (toolcall.py lines 85 and 119,
rag_chat.py line 97, app2.py line 66), the embedding loop
(index_builder.py line 42), and the speech calls (app2.py lines 80, 87,
98) — is made with no surrounding try/except, so an exception raised by the
SDK propagates to the caller instead of being caught; the embedding loop
aborts at the first failure, and no call performs retry or backoff (at most
one SDK call per text). -/
theorem claim_C2_amended_sdk_errors_propagate (e user_input t : String)
    (ts : List String) (embed : String → Except String (List ℚ))
    (he : embed t = .error e) :
    ToolCall.toolcall_turn (fun _ => .error e) user_input = .error e ∧
    (∀ (sdk : List PyMessage → Except String ToolCall.ChatResponse)
       (s : String) (fc : ToolCall.FunctionCall) (rest : List ToolCall.Choice),
      sdk [⟨"system", ToolCall.toolSystemText⟩, ⟨"user", user_input⟩] =
        .ok ⟨⟨⟨s, some fc⟩⟩ :: rest⟩ →
      (∀ r, ToolCall.dispatch fc.name fc.a fc.b = .ok r →
        sdk ([⟨"system", ToolCall.toolSystemText⟩, ⟨"user", user_input⟩] ++
          [⟨"function", ToolCall.resultStr r⟩]) = .error e) →
      ToolCall.toolcall_turn sdk user_input = .error e) ∧
    (∀ (conversation : List PyMessage) (all_chunks : List String)
       (index : Faiss.IndexFlatL2) (embv : String → List ℚ) (q : String),
      RagChat.rag_query_turn (fun _ => .error e) conversation all_chunks index embv q =
        .error e) ∧
    IndexBuilder.embed_loop embed (t :: ts) = .error e ∧
    (IndexBuilder.embed_trace embed (t :: ts)).1 =
      IndexBuilder.embed_loop embed (t :: ts) ∧
    (IndexBuilder.embed_trace embed (t :: ts)).2 ≤ (t :: ts).length ∧
    (∀ (sys : String) (msgs : List AppChat.UIMessage) (img : Option String),
      AppChat.get_chat_completion sys msgs img (fun _ => .error e) = .error e) ∧
    AppChat.transcribe_audio_from_mic (fun _ => .error e) = .error e ∧
    (∀ txt, AppChat.synthesize_text_to_speech (fun _ => .error e) txt = .error e) ∧
    AppChat.transcribe_audio_file (fun _ => .error e) = .error e := by
  refine ⟨rfl, ?_, fun conversation all_chunks index embv q => rfl, ?_,
    (IndexBuilder.embed_trace_spec embed _).1,
    (IndexBuilder.embed_trace_spec embed _).2,
    fun sys msgs img => rfl, rfl, fun txt => rfl, rfl⟩
  · intro sdk s fc rest h1 h2
    obtain ⟨r, hr⟩ := ToolCall.dispatch_ok fc.name fc.a fc.b
    simp only [ToolCall.toolcall_turn]
    rw [h1, exceptBind_ok]
    simp only [ToolCall.firstChoice, List.head?_cons]
    rw [exceptBind_ok]
    simp only [hr, exceptBind_ok]
    rw [h2 r hr, exceptBind_error]
  · simp only [IndexBuilder.embed_loop]
    rw [he, exceptBind_error]

/-- Witness for the amended C2 at a concrete failing SDK call. -/
theorem claim_C2_witness :
    ToolCall.toolcall_turn (fun _ => .error "HTTP 500") "hello" = .error "HTTP 500" :=
  (claim_C2_amended_sdk_errors_propagate "HTTP 500" "hello" "x" []
    (fun _ => .error "HTTP 500") rfl).1

/-- Claim C3: `chunk_text` with chunk size 200 and overlap 50 returns the
chunks at word offsets 0, 150, 300, … (step `chunk_size - overlap`); each
chunk has at most 200 words; every input word appears in at least one
chunk; for consecutive chunks away from the final chunk, the later chunk
starts with the last 50 words of the earlier one; the empty text yields an
empty list; and the function is defined (terminates) whenever
`overlap < chunk_size`. -/
theorem claim_C3_chunk_text_spec (text : String) :
    RagChat.chunk_text text 200 50 =
      some ((RagChat.wordChunks (RagChat.pySplit text) 200 50).map
        (String.intercalate " ")) ∧
    (RagChat.wordChunks (RagChat.pySplit text) 200 50).length =
      RagChat.numChunks (RagChat.pySplit text).length 150 ∧
    (∀ j, j < (RagChat.wordChunks (RagChat.pySplit text) 200 50).length →
      (RagChat.wordChunks (RagChat.pySplit text) 200 50).getD j [] =
        ((RagChat.pySplit text).drop (j * 150)).take 200) ∧
    (∀ c ∈ RagChat.wordChunks (RagChat.pySplit text) 200 50, c.length ≤ 200) ∧
    (∀ w ∈ RagChat.pySplit text,
      ∃ c ∈ RagChat.wordChunks (RagChat.pySplit text) 200 50, w ∈ c) ∧
    (∀ j, j + 2 < (RagChat.wordChunks (RagChat.pySplit text) 200 50).length →
      ((RagChat.wordChunks (RagChat.pySplit text) 200 50).getD j []).drop
          (((RagChat.wordChunks (RagChat.pySplit text) 200 50).getD j []).length - 50) =
        ((RagChat.wordChunks (RagChat.pySplit text) 200 50).getD (j + 1) []).take 50) ∧
    RagChat.chunk_text "" 200 50 = some [] ∧
    (∀ s csz ovl, ovl < csz → (RagChat.chunk_text s csz ovl).isSome = true) := by
  have h52 : (50 : Nat) < 200 := by omega
  refine ⟨?_, ?_, ?_, ?_, ?_, ?_, ?_, ?_⟩
  · simp [RagChat.chunk_text, RagChat.wordChunks]
  · have := RagChat.wordChunks_length (RagChat.pySplit text) 200 50 h52
    simpa using this
  · intro j hj
    have := RagChat.wordChunks_getD (RagChat.pySplit text) 200 50 j h52 hj
    simpa using this
  · exact RagChat.wordChunks_chunk_le (RagChat.pySplit text) 200 50 h52
  · exact RagChat.wordChunks_cover (RagChat.pySplit text) 200 50 h52
  · intro j hj
    obtain ⟨hl, hov⟩ :=
      RagChat.wordChunks_overlap (RagChat.pySplit text) 200 50 j h52 (by omega) hj
    rw [hl]
    simpa using hov
  · have hsplit : RagChat.pySplit "" = [] := by
      rw [RagChat.pySplit, String.split, String.splitAux, dif_pos (by decide)]
      rfl
    simp only [RagChat.chunk_text]
    norm_num
    rw [hsplit, RagChat.chunkLoop, dif_neg (by simp)]
  · intro s csz ovl hlt
    rw [RagChat.chunk_text, if_neg (by omega), if_neg (by omega)]
    rfl

/-- Witness for C3: `chunk_text` is defined on a concrete text with the
default parameters. -/
theorem claim_C3_witness : (RagChat.chunk_text "alpha beta" 200 50).isSome = true :=
  (claim_C3_chunk_text_spec "alpha beta").2.2.2.2.2.2.2 "alpha beta" 200 50 (by omega)

/-- Claim C4: when the index-builder script completes, the flat L2 index
holds exactly one vector per embedded row, added in row order, and the
metadata is `[{"row_index": i} for i in range(len(texts))]`, so index size
equals metadata length equals the number of loaded texts. -/
theorem claim_C4_build_index_spec (embed : String → Except String (List ℚ))
    (texts : List String) (idx : Faiss.IndexFlatL2)
    (md : List IndexBuilder.RowMetadata)
    (h : IndexBuilder.build_index embed texts = .ok (idx, md)) :
    idx.ntotal = texts.length ∧
    md.length = texts.length ∧
    md = (List.range texts.length).map (fun i => IndexBuilder.RowMetadata.mk i) ∧
    ∀ i, i < texts.length → embed (texts.getD i "") = .ok (idx.vectors.getD i []) := by
  simp only [IndexBuilder.build_index] at h
  cases hr : IndexBuilder.embed_loop embed texts with
  | error e =>
    rw [hr, exceptBind_error] at h
    exact Except.noConfusion h
  | ok embs =>
    rw [hr, exceptBind_ok] at h
    simp only [Except.ok.injEq, Prod.mk.injEq] at h
    obtain ⟨h1, h2⟩ := h
    obtain ⟨hlen, hall⟩ := IndexBuilder.embed_loop_ok embed texts embs hr
    subst h1
    subst h2
    refine ⟨?_, by simp, rfl, fun i hi => ?_⟩
    · simp [Faiss.IndexFlatL2.ntotal, Faiss.IndexFlatL2.add, Faiss.IndexFlatL2.empty, hlen]
    · simpa [Faiss.IndexFlatL2.add, Faiss.IndexFlatL2.empty] using hall i hi

/-- Witness for C4 on a two-row build with a constant embedder. -/
theorem claim_C4_witness : (Faiss.IndexFlatL2.mk 0 [[], []]).ntotal = 2 :=
  (claim_C4_build_index_spec (fun _ => .ok []) ["a", "b"]
    (Faiss.IndexFlatL2.mk 0 [[], []]) [⟨0⟩, ⟨1⟩] rfl).1

/-- Claim C5: `get_chat_completion` prepends exactly one system message at
the front of the API list, forwards every other UI message with role and
text content unchanged, and attaches the image to exactly the last user
message and to no other message, only when image data is provided. -/
theorem claim_C5_api_messages_spec (sys : String) (msgs : List AppChat.UIMessage)
    (img : Option String) :
    (AppChat.get_chat_completion_messages sys msgs img).length = msgs.length + 1 ∧
    (AppChat.get_chat_completion_messages sys msgs img).getD 0 default =
      AppChat.ApiMessage.mk "system" (AppChat.ApiContent.plain sys) ∧
    ∀ i, i < msgs.length →
      ((AppChat.get_chat_completion_messages sys msgs img).getD (i + 1) default).role =
        (msgs.getD i default).role ∧
      ((AppChat.get_chat_completion_messages sys msgs img).getD (i + 1)
          default).content.text = (msgs.getD i default).content ∧
      (((AppChat.get_chat_completion_messages sys msgs img).getD (i + 1)
          default).content.hasImage = true ↔
        img.isSome = true ∧ (msgs.getD i default).role = "user" ∧
        ∀ j, i < j → j < msgs.length → (msgs.getD j default).role ≠ "user") := by
  refine ⟨by simp [AppChat.get_chat_completion_messages, AppChat.get_api_messages], rfl, ?_⟩
  intro i hi
  have hstep : (AppChat.get_chat_completion_messages sys msgs img).getD (i + 1) default =
      (AppChat.get_api_messages msgs img).getD i default := by
    simp [AppChat.get_chat_completion_messages]
  rw [hstep]
  cases img with
  | none =>
    rw [AppChat.get_api_messages_getD_none msgs i hi]
    refine ⟨rfl, rfl, ?_⟩
    simp [AppChat.ApiContent.hasImage]
  | some im =>
    rw [AppChat.get_api_messages_getD_some msgs im i hi]
    by_cases hc : (msgs.getD i default).role = "user" ∧
        AppChat.last_user_message_index msgs = some i
    · rw [if_pos hc]
      obtain ⟨hrole, hlast⟩ := hc
      obtain ⟨-, -, hafter⟩ := (AppChat.last_user_message_index_iff msgs i).mp hlast
      refine ⟨hrole.symm, rfl, ?_⟩
      simp only [AppChat.ApiContent.hasImage, Option.isSome_some, true_and]
      exact ⟨fun _ => ⟨hrole, hafter⟩, fun _ => trivial⟩
    · rw [if_neg hc]
      refine ⟨rfl, rfl, ?_⟩
      simp only [AppChat.ApiContent.hasImage, Option.isSome_some, true_and]
      constructor
      · intro hfalse
        exact absurd hfalse (by simp)
      · rintro ⟨hrole, hafter⟩
        exact absurd ⟨hrole, (AppChat.last_user_message_index_iff msgs i).mpr
          ⟨hi, hrole, hafter⟩⟩ hc

/-- Witness for C5: with no image, the single forwarded message keeps its
text content. -/
theorem claim_C5_witness :
    ((AppChat.get_chat_completion_messages "sys" [AppChat.UIMessage.mk "user" "hi"]
        none).getD 1 default).content.text =
      (([AppChat.UIMessage.mk "user" "hi"] : List AppChat.UIMessage).getD 0 default).content :=
  ((claim_C5_api_messages_spec "sys" [AppChat.UIMessage.mk "user" "hi"] none).2.2 0
    (by simp)).2.1

/-- Claim C6: `divide` returns the string `"Division by zero"` when the
divisor is zero and the quotient otherwise, so the tool dispatch (add,
subtract, multiply, divide, unknown names) is total and never raises a
division-by-zero error. -/
theorem claim_C6_dispatch_total (name : String) (a b : ℚ) :
    (∃ r, ToolCall.dispatch name a b = .ok r) ∧
    ToolCall.dispatch "divide" a 0 = .ok (.str "Division by zero") ∧
    (b ≠ 0 → ToolCall.dispatch "divide" a b = .ok (.num (a / b))) ∧
    (name ∉ (["add", "subtract", "multiply", "divide"] : List String) →
      ToolCall.dispatch name a b = .ok (.str "Unknown function.")) := by
  refine ⟨ToolCall.dispatch_ok name a b, ?_, ?_, ?_⟩
  · simp [ToolCall.dispatch, ToolCall.divide]
  · intro hb
    simp [ToolCall.dispatch, ToolCall.divide, ToolCall.pyDiv, hb, Except.map]
  · intro hmem
    simp only [List.mem_cons, List.not_mem_nil, or_false, not_or] at hmem
    obtain ⟨h1, h2, h3, h4⟩ := hmem
    simp [ToolCall.dispatch, h1, h2, h3, h4]

/-- Witness for C6: dividing by zero yields the sentinel string. -/
theorem claim_C6_witness :
    ToolCall.dispatch "divide" 3 0 = .ok (.str "Division by zero") :=
  (claim_C6_dispatch_total "divide" 3 0).2.1

/-- Claim C7: row parsing in `load_dataset` is guarded by try/except, so
the function is total over its rows — a failing `ast.literal_eval` makes
that row's derived text column the empty string, a succeeding one makes it
the joined list, and nothing else is validated. -/
theorem claim_C7_load_dataset_total (litEval : String → Except String (List String))
    (rows : List String) :
    (RagChat.load_dataset litEval rows).length = rows.length ∧
    (∀ i, i < rows.length →
      ((RagChat.load_dataset litEval rows).getD i ("", "")).1 = rows.getD i "") ∧
    (∀ i, i < rows.length → ∀ e, litEval (rows.getD i "") = .error e →
      ((RagChat.load_dataset litEval rows).getD i ("", "")).2 = "") ∧
    (∀ i, i < rows.length → ∀ qs, litEval (rows.getD i "") = .ok qs →
      ((RagChat.load_dataset litEval rows).getD i ("", "")).2 =
        String.intercalate " " qs) := by
  have key : ∀ i, i < rows.length → (RagChat.load_dataset litEval rows).getD i ("", "") =
      (rows.getD i "", RagChat.extract_questions litEval (rows.getD i "")) := by
    intro i hi
    have hlen : i < (RagChat.load_dataset litEval rows).length := by
      simpa [RagChat.load_dataset] using hi
    rw [List.getD_eq_getElem?_getD, List.getElem?_eq_getElem hlen, Option.getD_some]
    rw [List.getD_eq_getElem?_getD, List.getElem?_eq_getElem hi, Option.getD_some]
    simp [RagChat.load_dataset]
  refine ⟨by simp [RagChat.load_dataset], fun i hi => by rw [key i hi], fun i hi e he => ?_,
    fun i hi qs hqs => ?_⟩
  · rw [key i hi]
    rw [List.getD_eq_getElem?_getD] at he
    simp [RagChat.extract_questions, he]
  · rw [key i hi]
    rw [List.getD_eq_getElem?_getD] at hqs
    simp [RagChat.extract_questions, hqs]

/-- Witness for C7: a row whose questions field fails to parse gets an
empty text column. -/
theorem claim_C7_witness :
    ((RagChat.load_dataset (fun _ => .error "malformed node") ["[oops"]).getD 0
      ("", "")).2 = "" :=
  (claim_C7_load_dataset_total (fun _ => .error "malformed node") ["[oops"]).2.2.1 0
    (by simp) "malformed node" rfl

/-- Claim C8: chat history is persisted to SQLite — a prompt submitted with
no current chat creates a chat titled `prompt[:40] + "..."`, and every
submitted user prompt and generated assistant response is appended to the
history of the current chat via `database.add_message`.  The `database`
module is not under src/, so its two operations are modelled from the spec;
the prompt/response handling itself follows app2.py. -/
theorem claim_C8_chat_persistence (st : AppChat.SessionState) (db : AppChat.ChatDB)
    (prompt response : String) :
    (st.current_chat_id = none →
      (AppChat.handle_prompt st db prompt).2.chats =
        db.chats ++ [(db.chats.length, prompt.take 40 ++ "...")] ∧
      (AppChat.handle_prompt st db prompt).1.current_chat_id = some db.chats.length) ∧
    (∀ c, st.current_chat_id = some c →
      (AppChat.handle_prompt st db prompt).1.current_chat_id = some c ∧
      (AppChat.handle_prompt st db prompt).2.chats = db.chats) ∧
    (∀ c, (AppChat.handle_prompt st db prompt).1.current_chat_id = some c →
      (AppChat.prompt_cycle st db prompt response).2.messages =
        db.messages ++ [(c, "user", prompt), (c, "assistant", response)]) := by
  cases hcur : st.current_chat_id with
  | none =>
    refine ⟨fun _ => ⟨?_, ?_⟩, ?_, ?_⟩
    · simp [AppChat.handle_prompt, AppChat.add_chat, AppChat.add_message, hcur]
    · simp [AppChat.handle_prompt, AppChat.add_chat, AppChat.add_message, hcur]
    · intro c hc
      exact Option.noConfusion hc
    · intro c hc
      have hceq : c = db.chats.length := by
        simp [AppChat.handle_prompt, AppChat.add_chat, AppChat.add_message, hcur] at hc
        exact hc.symm
      subst hceq
      simp [AppChat.prompt_cycle, AppChat.handle_prompt, AppChat.handle_response,
        AppChat.add_chat, AppChat.add_message, hcur]
  | some c0 =>
    refine ⟨?_, ?_, ?_⟩
    · intro hnone
      exact Option.noConfusion hnone
    · intro c hc
      injection hc with hc
      subst hc
      constructor
      · simp [AppChat.handle_prompt, hcur]
      · simp [AppChat.handle_prompt, AppChat.add_message, hcur]
    · intro c hc
      have hceq : c = c0 := by
        simp [AppChat.handle_prompt, AppChat.add_message, hcur] at hc
        exact hc.symm
      subst hceq
      simp [AppChat.prompt_cycle, AppChat.handle_prompt, AppChat.handle_response,
        AppChat.add_message, hcur]

/-- Witness for C8: one prompt/response cycle starting with no current chat
appends exactly the user and assistant rows. -/
theorem claim_C8_witness :
    (AppChat.prompt_cycle (AppChat.SessionState.mk none []) (AppChat.ChatDB.mk [] [])
        "hello" "world").2.messages =
      (AppChat.ChatDB.mk [] []).messages ++ [(0, "user", "hello"), (0, "assistant", "world")] :=
  (claim_C8_chat_persistence (AppChat.SessionState.mk none []) (AppChat.ChatDB.mk [] [])
    "hello" "world").2.2 0 rfl

/-- Claim C9: every CDR follows the lifecycle generated synthetically →
flattened into a text summary plus metric list → embedded → optionally
matched against fixed numeric thresholds for routing → discarded: the
pipeline is exactly the composition of the stage functions, the persistent
store comes back unchanged, and the routing stage lands in one of the three
agent categories or `"none"`.  The CDR code is not under src/, so the
stages are modelled from the spec. -/
theorem claim_C9_cdr_lifecycle (embed : String → List ℚ) (store : List String)
    (org ct : String) (ss : List CDR.Session) :
    CDR.cdr_pipeline embed store org ct ss =
      (CDR.flatten_cdr (CDR.generate_cdr org ct ss),
        embed (CDR.flatten_cdr (CDR.generate_cdr org ct ss)).1,
        CDR.route_cdr (CDR.generate_cdr org ct ss), store) ∧
    (CDR.cdr_pipeline embed store org ct ss).2.2.2 = store ∧
    (CDR.cdr_pipeline embed store org ct ss).2.2.1 ∈
      (["network", "vdi", "log", "none"] : List String) :=
  ⟨rfl, rfl, Routing.route_record_mem _⟩

/-- Claim C10: each RAG query turn augments the prompt with retrieved
context — the query is embedded, the five nearest chunks under L2 distance
are fetched from the index, joined with blank lines, and prepended as
`Context:` before the question in the appended user message. -/
theorem claim_C10_rag_turn_spec (conversation : List PyMessage)
    (all_chunks : List String) (index : Faiss.IndexFlatL2)
    (embed : String → List ℚ) (user_input : String) :
    RagChat.rag_turn conversation all_chunks index embed user_input =
      conversation ++ [PyMessage.mk "user"
        ("Context:\n" ++ String.intercalate "\n\n"
            ((index.search (embed user_input) 5).map (fun i => all_chunks.getD i "")) ++
          "\n\nQuestion: " ++ user_input ++ "\nAnswer:")] ∧
    (index.search (embed user_input) 5).length = min 5 index.ntotal ∧
    (∀ i ∈ index.search (embed user_input) 5, i < index.ntotal) ∧
    (∀ i ∈ index.search (embed user_input) 5, ∀ j, j < index.ntotal →
      j ∉ index.search (embed user_input) 5 →
      Faiss.sqDist (embed user_input) (index.vectors.getD i []) ≤
        Faiss.sqDist (embed user_input) (index.vectors.getD j [])) :=
  ⟨rfl, Faiss.search_length index _ 5, Faiss.search_mem_lt index _ 5,
    Faiss.search_nearest index _ 5⟩

/-- Witness for C10: the search on a concrete two-vector index returns
`min 5 2` results. -/
theorem claim_C10_witness :
    ((Faiss.IndexFlatL2.mk 1 [[0], [1]]).search [0] 5).length =
      min 5 (Faiss.IndexFlatL2.mk 1 [[0], [1]]).ntotal :=
  (claim_C10_rag_turn_spec [] [] (Faiss.IndexFlatL2.mk 1 [[0], [1]]) (fun _ => [0])
    "q").2.1
